import Mathlib

/-!
Verification of the OtterTune configuration-recommendation pipeline
(server/website/website/tasks/async_tasks.py) against its specification.

The Python source is shallowly embedded: matrices become lists of rows over
the rationals, fallible numpy / sklearn operations return `Except PyErr`,
and external library calls (the float parser, the sklearn scaler fits, the
space-filling design generator, the surrogate models) are explicit function
parameters of the embedded code.
-/

/-- Python exception kinds observable in the embedded fragment. -/
inductive PyErr where
  | valueError
  | assertionError
  | indexError
deriving DecidableEq

/-- website.types.VarType: the DBMS knob type tags. -/
inductive VarType where
  | STRING
  | INTEGER
  | REAL
  | BOOL
  | ENUM
  | TIMESTAMP
deriving DecidableEq

/-- One entry of SessionKnob.objects.get_knobs_for_session: the fields of the
knob dictionary used by async_tasks.py.  Catalog defaults and enum values are
stored as text in the catalog; min and max are the declared numeric range. -/
structure Knob where
  name : String
  vartype : VarType
  default : String
  enumvals : String
  minval : ℚ
  maxval : ℚ
deriving DecidableEq

/-- The fixed truthy token set of `clean_knob_data`
(line 119: `str(default_val).lower() in ("on", "true", "yes", "0")`). -/
def truthy_tokens : List String := ["on", "true", "yes", "0"]

/-- Python `str.lower()` on the (ASCII) catalog text. -/
def py_lower (s : String) : String := String.mk (s.data.map Char.toLower)

/-- Python `str.split(',')` on a character list: one-character separator,
splitting into (possibly empty) chunks; `"".split(',') = ['']`. -/
def split_commas : List Char → List (List Char)
  | [] => [[]]
  | c :: rest =>
    match split_commas rest with
    | [] => [[]]
    | h :: t => if c = ',' then [] :: h :: t else (c :: h) :: t

/-- Python `str.split(',')` on a string. -/
def py_split_commas (s : String) : List String := (split_commas s.data).map String.mk

/-- The body of the `try` block converting a catalog default
(`clean_knob_data`, lines 116-121).  `none` models a raised ValueError:
`list.index` on a missing enum value, or a failing `float()` parse.
The `float` parse of the external runtime is the parameter `parse_float`. -/
def convert_default_try (parse_float : String → Option ℚ) (k : Knob) : Option ℚ :=
  match k.vartype with
  | VarType.ENUM =>
      match (py_split_commas k.enumvals).findIdx? (fun s => s = k.default) with
      | some i => some (i : ℚ)
      | none => none
  | VarType.BOOL => some (if py_lower k.default ∈ truthy_tokens then 1 else 0)
  | _ => parse_float k.default

/-- The converted default after the `except ValueError` handler
(lines 122-123): a conversion failure substitutes 0. -/
def convert_default (parse_float : String → Option ℚ) (k : Knob) : ℚ :=
  (convert_default_try parse_float k).getD 0

/-- A numpy array appearing as one element of the `new_columns` list in
`clean_knob_data`: `knob_matrix[:, index]` is one-dimensional (shape `(n,)`)
while `np.ones((nrows, 1)) * default_val` is two-dimensional (shape `(n, 1)`). -/
inductive NpCol where
  | one : List ℚ → NpCol
  | two : List ℚ → NpCol
deriving DecidableEq

/-- Entries of a column, forgetting its dimensionality. -/
def NpCol.entries : NpCol → List ℚ
  | one c => c
  | two c => c

/-- Whether the column is a one-dimensional array. -/
def NpCol.isOneDim : NpCol → Bool
  | one _ => true
  | two _ => false

/-- Horizontal stack of `(n, 1)` columns into an `(n, k)` matrix of rows. -/
def hstack_two (nrows : Nat) (cols : List (List ℚ)) : List (List ℚ) :=
  (List.range nrows).map (fun i => cols.map (fun c => c.getD i 0))

/-- np.hstack: dispatches on the dimensionality of the FIRST array.  All-1-D
input concatenates into one flat 1-D array; all-2-D input concatenates along
axis 1; mixing dimensionalities raises a ValueError, as does an empty input. -/
def np_hstack (cols : List NpCol) : Except PyErr (Sum (List ℚ) (List (List ℚ))) :=
  match cols with
  | [] => .error PyErr.valueError
  | c :: rest =>
    match c with
    | NpCol.one _ =>
        if rest.all (fun x => x.isOneDim) then
          .ok (Sum.inl ((cols.map NpCol.entries).flatten))
        else .error PyErr.valueError
    | NpCol.two c0 =>
        if rest.all (fun x => x.isOneDim = false)
            ∧ (∀ x ∈ cols, x.entries.length = c0.length) then
          .ok (Sum.inr (hstack_two c0.length (cols.map NpCol.entries)))
        else .error PyErr.valueError

/-- Model of `.reshape(nrows, -1)` applied to the hstack result, in
row-major order.
numpy raises a ValueError when the free dimension cannot be inferred
(`nrows = 0`) or the total size is not divisible by `nrows`. -/
def np_reshape_rows (nrows : Nat) (arr : Sum (List ℚ) (List (List ℚ))) :
    Except PyErr (List (List ℚ)) :=
  let flat := match arr with
    | Sum.inl v => v
    | Sum.inr m => m.flatten
  if nrows = 0 then .error PyErr.valueError
  else if flat.length % nrows = 0 then
    .ok ((List.range nrows).map
      (fun i => (flat.drop (i * (flat.length / nrows))).take (flat.length / nrows)))
  else .error PyErr.valueError

/-- One iteration of the per-knob loop of `clean_knob_data` (lines 110-133),
building the column: a knob missing from the input labels yields a 2-D column
constant-equal to its converted default; a present knob copies the input
column (a 1-D slice) at the first index of its name. -/
def build_col (parse_float : String → Option ℚ) (knob_labels : List String)
    (knob_matrix : List (List ℚ)) (nrows : Nat) (k : Knob) : NpCol :=
  if k.name ∉ knob_labels then
    NpCol.two (List.replicate nrows (convert_default parse_float k))
  else
    NpCol.one (knob_matrix.map
      (fun row => row.getD (knob_labels.findIdx (fun s => s = k.name)) 0))

/-- The label emitted by the same loop iteration: the knob's name when the
knob is missing, otherwise the input label at the found index. -/
def build_lab (knob_labels : List String) (k : Knob) : String :=
  if k.name ∉ knob_labels then k.name
  else knob_labels.getD (knob_labels.findIdx (fun s => s = k.name)) k.name

/-- clean_knob_data (async_tasks.py lines 92-146): align a knob matrix to the
session catalog.  The two trailing `assert` statements are modelled as
`PyErr.assertionError`. -/
def clean_knob_data (parse_float : String → Option ℚ) (session_knobs : List Knob)
    (knob_matrix : List (List ℚ)) (knob_labels : List String) :
    Except PyErr (List (List ℚ) × List String) :=
  let knob_cat := session_knobs.map Knob.name
  if knob_cat = knob_labels then .ok (knob_matrix, knob_labels)
  else
    let nrows := knob_matrix.length
    let new_labels := session_knobs.map (build_lab knob_labels)
    let new_columns := session_knobs.map (build_col parse_float knob_labels knob_matrix nrows)
    match np_hstack new_columns with
    | .error e => .error e
    | .ok arr =>
      match np_reshape_rows nrows arr with
      | .error e => .error e
      | .ok new_matrix =>
        if new_labels = knob_cat then
          if new_matrix.length = nrows ∧ ∀ r ∈ new_matrix, r.length = knob_cat.length then
            .ok (new_matrix, new_labels)
          else .error PyErr.assertionError
        else .error PyErr.assertionError

/-- Payload fields of `aggregate_target_results` relevant to cold start:
the `bad` flag and the attached `config_recommend` configuration. -/
structure AggPayload (C : Type) where
  bad : Bool
  config_recommend : Option C
deriving DecidableEq

/-- aggregate_target_results (async_tasks.py lines 181-248), cold-start state
machine over an abstract configuration type `C`.  `gen` is `gen_lhs_samples`
(external space-filling generator, already shuffled), `gen_random` the result
of `gen_random_data`.  Returns the payload together with the session's
persisted LHS pool after the call.  `list.pop()` removes the LAST element and
raises IndexError on an empty list. -/
def aggregate_target_results {C : Type} (gen : Nat → List C) (gen_random : C)
    (tuning_session : String) (has_pipeline_data : Bool) (lhs_samples : List C) :
    Except PyErr (AggPayload C × List C) :=
  if has_pipeline_data = false ∨ tuning_session = "lhs" then
    let all_samples :=
      if lhs_samples.length = 0 then
        (if tuning_session = "lhs" then gen 100 else gen 10)
      else lhs_samples
    match all_samples.getLast? with
    | none => .error PyErr.indexError
    | some samples => .ok (⟨true, some samples⟩, all_samples.dropLast)
  else if tuning_session = "randomly_generate" then
    .ok (⟨true, some gen_random⟩, lhs_samples)
  else
    .ok (⟨false, none⟩, lhs_samples)

/-- train_ddpg reward computation (async_tasks.py lines 384-403), with
`simple = params[DDPG_SIMPLE_REWARD]` and `lessisbetter` the polarity test
`metric_meta[target_objective].improvement == '(less is better)'`. -/
def ddpg_reward (simple lessisbetter : Bool) (objective base_objective prev_objective : ℚ) : ℚ :=
  if simple then
    (if lessisbetter then -(objective / base_objective) else objective / base_objective)
  else
    if lessisbetter then
      if objective - base_objective ≤ 0 then
        (((2 * base_objective - objective) / base_objective) ^ 2 - 1)
          * |2 * prev_objective - objective| / prev_objective
      else
        -((objective / base_objective) ^ 2 - 1) * objective / prev_objective
    else
      if objective - base_objective > 0 then
        ((objective / base_objective) ^ 2 - 1) * objective / prev_objective
      else
        -(((2 * base_objective - objective) / base_objective) ^ 2 - 1)
          * |2 * prev_objective - objective| / prev_objective

/-- sklearn StandardScaler.transform on one column with fitted mean and scale. -/
def ss_transform (mean scale x : ℚ) : ℚ := (x - mean) / scale

/-- sklearn StandardScaler.inverse_transform on one column. -/
def ss_inverse (mean scale y : ℚ) : ℚ := y * scale + mean

/-- combine_workload's per-column bound (lines 652-666) for a knob column
matching a session knob: the catalog min transformed into scaled space. -/
def scaled_knob_min (mean scale : ℚ) (k : Knob) : ℚ := ss_transform mean scale k.minval

/-- combine_workload's per-column bound for a matched knob: the catalog max
transformed into scaled space. -/
def scaled_knob_max (mean scale : ℚ) (k : Knob) : ℚ := ss_transform mean scale k.maxval

/-- configuration_recommendation final clamp (lines 793-796) on one knob
column: the winning configuration value `best` is clipped to
`[inverse_transform X_min, inverse_transform X_max]` in raw knob units. -/
def recommend_clamp (mean scale : ℚ) (k : Knob) (best : ℚ) : ℚ :=
  max (min best (ss_inverse mean scale (scaled_knob_max mean scale k)))
    (ss_inverse mean scale (scaled_knob_min mean scale k))

/-- sklearn's `_handle_zeros_in_scale`: a zero data range scales by 1. -/
def minmax_scale_factor (dmin dmax : ℚ) : ℚ := if dmax - dmin = 0 then 1 else dmax - dmin

/-- MinMaxScaler fitted on `np.vstack(knob_bounds)` (rows = catalog min and
max), applied inversely to one coordinate: `y * (dmax - dmin) + dmin`. -/
def mms_inverse (dmin dmax y : ℚ) : ℚ := y * minmax_scale_factor dmin dmax + dmin

/-- configuration_recommendation_ddpg (lines 470-474) on one knob: the raw
recommended value obtained by inverse MinMax-scaling the agent's action.
No clamp is applied on this path. -/
def ddpg_recommend (k : Knob) (action : ℚ) : ℚ := mms_inverse k.minval k.maxval action

/-- A metric matrix: list of rows over the rationals. -/
abbrev Mat := List (List ℚ)

/-- Elementwise negation of a matrix (`y_scaled = -y_scaled`). -/
def negMat (m : Mat) : Mat := m.map (fun row => row.map (fun x => -x))

/-- combine_workload metric standardization (lines 603-623).  `fitT` is a
fresh `StandardScaler().fit_transform` call of the external sklearn library;
`.error ()` models a raised ValueError.  Fewer than 5 target rows fit one
scaler jointly on the stacked data; otherwise separate scalers are fitted and
stacked, and a ValueError from either fit runs the handler, which fits a new
scaler on `y_target` only. -/
def y_scaling (fitT : Mat → Except Unit Mat) (y_target y_workload : Mat) : Except Unit Mat :=
  if y_target.length < 5 then
    fitT (y_target ++ y_workload)
  else
    match fitT y_target with
    | .ok y_target_scaled =>
      match fitT y_workload with
      | .ok y_workload_scaled => .ok (y_target_scaled ++ y_workload_scaled)
      | .error _ => fitT y_target
    | .error _ => fitT y_target

/-- The scaled, signed metric vector returned by combine_workload (lines
600-631): the standardized metric column, negated when the target objective
is NOT lower-is-better (the search minimizes the signed objective). -/
def combine_workload_y (fitT : Mat → Except Unit Mat) (y_target y_workload : Mat)
    (lessisbetter : Bool) : Except Unit Mat :=
  match y_scaling fitT y_target y_workload with
  | .ok y_scaled => .ok (if lessisbetter = false then negMat y_scaled else y_scaled)
  | .error e => .error e

/-- One row's squared Euclidean distance between a predicted-decile vector
and an actual-decile vector (`np.sum(np.square(np.subtract(...)), axis=1)`). -/
def rowDistSq (p a : List ℝ) : ℝ := ((p.zip a).map (fun q => (q.1 - q.2) ^ 2)).sum

/-- One row's Euclidean distance (`np.sqrt` of the row's squared sum). -/
noncomputable def rowDist (p a : List ℝ) : ℝ := Real.sqrt (rowDistSq p a)

/-- map_workload similarity score (lines 975-981): the mean over target rows
of the per-row Euclidean distance between binned predictions and the binned
target metrics. -/
noncomputable def map_workload_score (predictions y_target : List (List ℝ)) : ℝ :=
  (((predictions.zip y_target).map (fun r => rowDist r.1 r.2)).sum)
    / ((predictions.zip y_target).length : ℝ)

/-- map_workload best-score selection loop (lines 983-994): fold over the
score map in iteration order, starting from `best_score = np.inf` (the `none`
accumulator), replacing the best exactly when the new score is strictly
smaller.  `names` resolves a workload id to its name. -/
def pick_best (names : Nat → String) (scores : List (Nat × ℚ)) : Option (Nat × String × ℚ) :=
  scores.foldl
    (fun acc p =>
      match acc with
      | none => some (p.1, names p.1, p.2)
      | some b => if p.2 < b.2.2 then some (p.1, names p.1, p.2) else some b)
    none

/-- The `scores_info` map built by the same loop: id to (name, score). -/
def scores_info (names : Nat → String) (scores : List (Nat × ℚ)) : List (Nat × String × ℚ) :=
  scores.map (fun p => (p.1, names p.1, p.2))

/-- Modelled from the spec: the Mapper "selects the workload with minimum
score (ties resolved by first-seen order)".  Reference definition used to
compare the selection loop against the specification's words. -/
def firstMin : List (Nat × ℚ) → Option (Nat × ℚ)
  | [] => none
  | p :: rest =>
    match firstMin rest with
    | none => some p
    | some q => if q.2 < p.2 then some q else some p

/-- The enum example of the specification: default "read-committed" among
enum values "read-uncommitted,read-committed". -/
def enum_example_knob : Knob :=
  ⟨"isolation_level", VarType.ENUM, "read-committed", "read-uncommitted,read-committed", 0, 0⟩

/-- A boolean catalog knob with the given default text. -/
def bool_knob (d : String) : Knob := ⟨"bool_knob", VarType.BOOL, d, "", 0, 1⟩

/-- Concrete two-knob catalog used to exercise clean_knob_data. -/
def c3_catalog : List Knob :=
  [⟨"knob_a", VarType.INTEGER, "0", "", 0, 10⟩, ⟨"knob_b", VarType.INTEGER, "5", "", 0, 10⟩]

/-- A real-valued knob with declared range [0, 1]. -/
def c2_knob : Knob := ⟨"knob_r", VarType.REAL, "0", "", 0, 1⟩

/-- A concrete sklearn-fit behavior: succeeds (identically) on every matrix
except the single workload row `[[10]]`, on which it raises ValueError. -/
def fitT_fail_workload : Mat → Except Unit Mat :=
  fun m => if m = [[10]] then .error () else .ok m

/-- A concrete sklearn-fit behavior returning the standardized column
`[[1]]` for every input. -/
def fitT_const_one : Mat → Except Unit Mat := fun _ => .ok [[1]]

/-- Five target metric rows, used where the target has at least 5 results. -/
def y_target5 : Mat := [[0], [1], [2], [3], [4]]

/-- C8: for a lower-is-better objective with base 100, prev 90, cur 80, the
shaped (non-simple) train_ddpg reward is strictly positive, and its magnitude
strictly exceeds the shaped reward for cur 95 with the same base and prev. -/
theorem ddpg_shaped_reward_scenario :
    0 < ddpg_reward false true 80 100 90 ∧
    |ddpg_reward false true 95 100 90| < |ddpg_reward false true 80 100 90| := by
  have h80 : ddpg_reward false true 80 100 90 = 22 / 45 := by
    norm_num [ddpg_reward, abs_of_nonneg]
  have h95 : ddpg_reward false true 95 100 90 = 697 / 7200 := by
    norm_num [ddpg_reward, abs_of_nonneg]
  rw [h80, h95]
  norm_num [abs_of_nonneg]

/-- C3: on an input whose label set is a nonempty strict subset of the
catalog ("knob_a" of a catalog with "knob_a" and "knob_b"), clean_knob_data
raises a ValueError inside np.hstack — it mixes the copied 1-D column with
the synthesized 2-D default column — instead of returning the aligned
catalog-ordered matrix and labels. -/
theorem clean_knob_data_strict_subset_raises :
    ["knob_a"] ⊆ c3_catalog.map Knob.name ∧
    clean_knob_data (fun _ => none) c3_catalog [[1]] ["knob_a"] =
      .error PyErr.valueError := by
  constructor
  · decide
  · rfl

/-- C5: when the target has at least 5 rows, its own scaler fit succeeds and
the workload fit raises, the fallback handler of combine_workload fits a new
scaler on the TARGET data only — the result keeps only the 5 target rows and
differs from the joint fit over the stacked target+workload data that the
specification describes. -/
theorem y_scaling_fallback_not_joint :
    y_scaling fitT_fail_workload y_target5 [[10]] = .ok y_target5 ∧
    y_scaling fitT_fail_workload y_target5 [[10]] ≠
      fitT_fail_workload (y_target5 ++ [[10]]) := by
  constructor
  · rfl
  · intro h
    rw [show y_scaling fitT_fail_workload y_target5 [[10]] = .ok y_target5 from rfl,
      show fitT_fail_workload (y_target5 ++ [[10]]) = .ok (y_target5 ++ [[10]]) from rfl] at h
    exact absurd (Except.ok.inj h) (by decide)

/-- C1 counterexample: with a lower-is-better target objective the scaled
metric vector returned by combine_workload is NOT the standardized vector
times -1 — it is returned unnegated (the code negates when the objective is
higher-is-better). -/
theorem combine_workload_y_not_negated_when_lessisbetter :
    y_scaling fitT_const_one [] [] = .ok [[1]] ∧
    combine_workload_y fitT_const_one [] [] true ≠ .ok (negMat [[1]]) := by
  constructor
  · rfl
  · intro h
    rw [show combine_workload_y fitT_const_one [] [] true = .ok [[1]] from rfl] at h
    exact absurd (Except.ok.inj h) (by decide)

/-- C1 amended: the scaled metric vector is negated exactly when the target
objective's polarity is NOT lower-is-better (the search then minimizes the
signed objective); a lower-is-better objective is returned unnegated. -/
theorem combine_workload_y_sign (fitT : Mat → Except Unit Mat)
    (y_target y_workload : Mat) (lessisbetter : Bool) (y : Mat)
    (h : y_scaling fitT y_target y_workload = .ok y) :
    combine_workload_y fitT y_target y_workload lessisbetter =
      .ok (if lessisbetter then y else negMat y) := by
  unfold combine_workload_y
  rw [h]
  cases lessisbetter <;> simp

/-- Witness: combine_workload_y_sign applied at a concrete higher-is-better
input, where the returned vector is the negated standardized vector. -/
theorem combine_workload_y_sign_witness :
    combine_workload_y fitT_const_one [] [] false = .ok (negMat [[1]]) := by
  have h := combine_workload_y_sign fitT_const_one [] [] false [[1]] rfl
  simpa using h

/-- C10: the truthy token set of the boolean default conversion is exactly
("on", "true", "yes", "0"); a boolean catalog default whose lowercased text
is "0" fills the missing column with the constant 1.0 (True), while any token
outside the set — including "1" — fills it with 0.0 (False). -/
theorem bool_default_truthy_tokens :
    truthy_tokens = ["on", "true", "yes", "0"] ∧
    (∀ (parse_float : String → Option ℚ) (d : String),
        convert_default parse_float (bool_knob d) =
          if py_lower d ∈ truthy_tokens then 1 else 0) ∧
    (∀ (parse_float : String → Option ℚ) (nrows : Nat),
        build_col parse_float [] [] nrows (bool_knob "0") =
          NpCol.two (List.replicate nrows 1) ∧
        build_col parse_float [] [] nrows (bool_knob "1") =
          NpCol.two (List.replicate nrows 0)) := by
  refine ⟨rfl, fun pf d => rfl, fun pf n => ⟨rfl, rfl⟩⟩

/-- C9: a catalog knob missing from the input labels is filled with a column
constant-equal to its converted default; a failing conversion substitutes 0
instead of raising; the enum default "read-committed" among
["read-uncommitted", "read-committed"] converts to 1. -/
theorem clean_knob_default_fill (parse_float : String → Option ℚ)
    (knob_labels : List String) (knob_matrix : List (List ℚ)) (nrows : Nat)
    (k : Knob) (h : k.name ∉ knob_labels) :
    build_col parse_float knob_labels knob_matrix nrows k =
      NpCol.two (List.replicate nrows (convert_default parse_float k)) ∧
    (convert_default_try parse_float k = none → convert_default parse_float k = 0) ∧
    convert_default parse_float enum_example_knob = 1 := by
  refine ⟨?_, ?_, ?_⟩
  · simp [build_col, h]
  · intro hn
    simp [convert_default, hn]
  · rfl

/-- Witness: clean_knob_default_fill at a concrete missing enum knob. -/
theorem clean_knob_default_fill_witness :
    build_col (fun _ => none) [] [] 2 enum_example_knob =
      NpCol.two (List.replicate 2 (convert_default (fun _ => none) enum_example_knob)) ∧
    (convert_default_try (fun _ => none) enum_example_knob = none →
      convert_default (fun _ => none) enum_example_knob = 0) ∧
    convert_default (fun _ => none) enum_example_knob = 1 :=
  clean_knob_default_fill (fun _ => none) [] [] 2 enum_example_knob (by simp)

/-- C2 counterexample: the DDPG recommendation path applies no clamp — for
the knob with declared range [0, 1] and agent action 2, the persisted value
is 2, outside the catalog range. -/
theorem ddpg_recommend_out_of_bounds :
    ddpg_recommend c2_knob 2 = 2 ∧ ¬(ddpg_recommend c2_knob 2 ≤ c2_knob.maxval) := by
  constructor
  · norm_num [ddpg_recommend, mms_inverse, minmax_scale_factor, c2_knob]
  · norm_num [ddpg_recommend, mms_inverse, minmax_scale_factor, c2_knob]

/-- C2 amended: the GPR and DNN paths clamp every recommended knob value to
the catalog [min, max] (for any fitted scaler with nonzero scale and a
well-formed range), while the DDPG path stays within [min, max] only under
the extra assumptions that the knob range is nondegenerate and the agent's
action lies in [0, 1] — assumptions the code does not enforce. -/
theorem recommendation_bounds :
    (∀ (mean scale best : ℚ) (k : Knob), scale ≠ 0 → k.minval ≤ k.maxval →
        k.minval ≤ recommend_clamp mean scale k best ∧
          recommend_clamp mean scale k best ≤ k.maxval) ∧
    (∀ (k : Knob) (action : ℚ), k.minval < k.maxval → 0 ≤ action → action ≤ 1 →
        k.minval ≤ ddpg_recommend k action ∧ ddpg_recommend k action ≤ k.maxval) := by
  constructor
  · intro mean scale best k hs hk
    have hround : ∀ v : ℚ, ss_inverse mean scale (ss_transform mean scale v) = v := by
      intro v
      field_simp [ss_inverse, ss_transform]
    unfold recommend_clamp scaled_knob_min scaled_knob_max
    rw [hround, hround]
    exact ⟨le_max_right _ _, max_le (min_le_right _ _) hk⟩
  · intro k action hlt ha0 ha1
    have hne : k.maxval - k.minval ≠ 0 := sub_ne_zero.mpr (ne_of_gt hlt)
    unfold ddpg_recommend mms_inverse minmax_scale_factor
    rw [if_neg hne]
    constructor
    · nlinarith
    · nlinarith

/-- Witness: recommendation_bounds at concrete inputs — the clamped GPR value
for best 42 on range [0, 1], and the DDPG value for action one half. -/
theorem recommendation_bounds_witness :
    (c2_knob.minval ≤ recommend_clamp 0 1 c2_knob 42 ∧
      recommend_clamp 0 1 c2_knob 42 ≤ c2_knob.maxval) ∧
    (c2_knob.minval ≤ ddpg_recommend c2_knob (1 / 2) ∧
      ddpg_recommend c2_knob (1 / 2) ≤ c2_knob.maxval) :=
  ⟨recommendation_bounds.1 0 1 42 c2_knob (by norm_num) (by norm_num [c2_knob]),
   recommendation_bounds.2 c2_knob (1 / 2) (by norm_num [c2_knob]) (by norm_num) (by norm_num)⟩

/-- C4: with an empty persisted LHS pool, one aggregate_target_results call
regenerates a pool of 100 configurations in `lhs` mode (10 in any other mode
without pipeline data), pops exactly one configuration (the last), persists
the remaining 99 (resp. 9), and returns bad = true with the popped
configuration attached; persisted pool plus popped configuration reassemble
the generated pool, so the pop-and-persist happens exactly once. -/
theorem aggregate_cold_start_pool {C : Type} (gen : Nat → List C) (gen_random : C)
    (hpd : Bool) (h100 : (gen 100).length = 100) (h10 : (gen 10).length = 10) :
    (∃ cfg pool, aggregate_target_results gen gen_random "lhs" hpd [] =
        .ok (⟨true, some cfg⟩, pool) ∧ pool.length = 99 ∧ pool ++ [cfg] = gen 100) ∧
    (∃ cfg pool, aggregate_target_results gen gen_random "tuning_session" false [] =
        .ok (⟨true, some cfg⟩, pool) ∧ pool.length = 9 ∧ pool ++ [cfg] = gen 10) := by
  have hne100 : gen 100 ≠ [] := by
    intro hh
    rw [hh] at h100
    simp at h100
  have hne10 : gen 10 ≠ [] := by
    intro hh
    rw [hh] at h10
    simp at h10
  constructor
  · refine ⟨(gen 100).getLast hne100, (gen 100).dropLast, ?_, ?_, ?_⟩
    · unfold aggregate_target_results
      rw [if_pos (Or.inr rfl)]
      simp only [List.length_nil, if_pos rfl, if_pos (rfl : ("lhs" : String) = "lhs"), if_true]
      rw [List.getLast?_eq_getLast _ hne100]
    · rw [List.length_dropLast, h100]
    · exact List.dropLast_append_getLast hne100
  · refine ⟨(gen 10).getLast hne10, (gen 10).dropLast, ?_, ?_, ?_⟩
    · unfold aggregate_target_results
      rw [if_pos (Or.inl rfl)]
      simp only [List.length_nil, if_pos rfl,
        if_neg (by decide : ¬("tuning_session" : String) = "lhs"), if_true]
      rw [List.getLast?_eq_getLast _ hne10]
    · rw [List.length_dropLast, h10]
    · exact List.dropLast_append_getLast hne10

/-- Witness: aggregate_cold_start_pool with the generator returning the
first n naturals as configurations. -/
theorem aggregate_cold_start_pool_witness :
    (∃ cfg pool, aggregate_target_results (fun n => List.range n) 0 "lhs" true [] =
        .ok (⟨true, some cfg⟩, pool) ∧ pool.length = 99 ∧ pool ++ [cfg] = List.range 100) ∧
    (∃ cfg pool, aggregate_target_results (fun n => List.range n) 0 "tuning_session" false [] =
        .ok (⟨true, some cfg⟩, pool) ∧ pool.length = 9 ∧ pool ++ [cfg] = List.range 10) :=
  aggregate_cold_start_pool (fun n => List.range n) 0 true (by simp) (by simp)

/-- firstMin returns none exactly on the empty score map. -/
theorem firstMin_eq_none_iff (l : List (Nat × ℚ)) : firstMin l = none ↔ l = [] := by
  cases l with
  | nil => simp [firstMin]
  | cons p t =>
    simp only [firstMin]
    cases ht : firstMin t with
    | none =>
      try dsimp only
      simp
    | some q =>
      try dsimp only
      by_cases hq : q.2 < p.2
      · simp [hq]
      · simp [hq]

/-- The selection fold, started from an already-chosen best `b`, yields the
better of `b` and the first minimum of the remaining scores, preferring `b`
on ties (the loop replaces only on strict improvement). -/
theorem pick_best_go (names : Nat → String) (l : List (Nat × ℚ)) :
    ∀ b : Nat × String × ℚ,
      l.foldl
        (fun acc p =>
          match acc with
          | none => some (p.1, names p.1, p.2)
          | some b => if p.2 < b.2.2 then some (p.1, names p.1, p.2) else some b)
        (some b) =
      some (match firstMin l with
        | none => b
        | some q => if q.2 < b.2.2 then (q.1, names q.1, q.2) else b) := by
  induction l with
  | nil => intro b; rfl
  | cons p t ih =>
    intro b
    simp only [List.foldl_cons]
    show List.foldl _ (if p.2 < b.2.2 then some (p.1, names p.1, p.2) else some b) t = _
    by_cases h1 : p.2 < b.2.2
    · rw [if_pos h1, ih]
      cases ht : firstMin t with
      | none =>
        have htnil : t = [] := (firstMin_eq_none_iff t).mp ht
        subst htnil
        simp only [firstMin]
        try dsimp only
        rw [if_pos h1]
      | some q =>
        simp only [firstMin, ht]
        try dsimp only
        by_cases h2 : q.2 < p.2
        · rw [if_pos h2, if_pos h2]
          try dsimp only
          rw [if_pos (lt_trans h2 h1)]
        · rw [if_neg h2, if_neg h2]
          try dsimp only
          rw [if_pos h1]
    · rw [if_neg h1, ih]
      cases ht : firstMin t with
      | none =>
        have htnil : t = [] := (firstMin_eq_none_iff t).mp ht
        subst htnil
        simp only [firstMin]
        try dsimp only
        rw [if_neg h1]
      | some q =>
        simp only [firstMin, ht]
        try dsimp only
        by_cases h2 : q.2 < p.2
        · rw [if_pos h2]
        · have hqb : ¬q.2 < b.2.2 := fun hc => h1 (lt_of_le_of_lt (not_lt.mp h2) hc)
          rw [if_neg h2, if_neg hqb]
          dsimp only
          rw [if_neg h1]

/-- C6: the Mapper's selection loop picks exactly the first-seen minimum of
the score map (the accumulator is replaced only on a strictly smaller score);
the selected entry is a member attaining the minimum and every entry seen
before it scores strictly worse; and on the two-candidate scenario with
scores 0 and 5 the score-0 workload is selected in either iteration order,
alongside the full (id, name, score) map. -/
theorem map_workload_min_selection :
    (∀ (names : Nat → String) (scores : List (Nat × ℚ)),
        pick_best names scores = (firstMin scores).map (fun p => (p.1, names p.1, p.2))) ∧
    (∀ (scores : List (Nat × ℚ)) (p : Nat × ℚ), firstMin scores = some p →
        ∃ l1 l2, scores = l1 ++ p :: l2 ∧ (∀ q ∈ l1, p.2 < q.2) ∧ ∀ q ∈ scores, p.2 ≤ q.2) ∧
    (∀ names : Nat → String,
        pick_best names [(1, (0 : ℚ)), (2, 5)] = some (1, names 1, 0) ∧
        pick_best names [(2, (5 : ℚ)), (1, 0)] = some (1, names 1, 0) ∧
        scores_info names [(1, (0 : ℚ)), (2, 5)] = [(1, names 1, 0), (2, names 2, 5)]) := by
  refine ⟨?_, ?_, ?_⟩
  · intro names scores
    cases scores with
    | nil => rfl
    | cons p t =>
      show List.foldl _ (some (p.1, names p.1, p.2)) t = _
      rw [pick_best_go]
      cases ht : firstMin t with
      | none =>
        have htnil : t = [] := (firstMin_eq_none_iff t).mp ht
        subst htnil
        simp only [firstMin]
        try dsimp only
        rfl
      | some q =>
        simp only [firstMin, ht]
        try dsimp only
        by_cases h2 : q.2 < p.2
        · rw [if_pos h2, if_pos h2]
          rfl
        · rw [if_neg h2, if_neg h2]
          rfl
  · intro scores
    induction scores with
    | nil =>
      intro p hp
      exact absurd hp (by simp [firstMin])
    | cons a t ih =>
      intro p hp
      simp only [firstMin] at hp
      cases ht : firstMin t with
      | none =>
        have htnil : t = [] := (firstMin_eq_none_iff t).mp ht
        subst htnil
        rw [ht] at hp
        dsimp only at hp
        have hpa : p = a := (Option.some.inj hp).symm
        subst hpa
        refine ⟨[], [], by simp, by simp, ?_⟩
        intro x hx
        have hxa : x = p := by simpa using hx
        subst hxa
        exact le_refl _
      | some q =>
        rw [ht] at hp
        dsimp only at hp
        obtain ⟨l1, l2, hsplit, hbefore, hmin⟩ := ih q ht
        by_cases h2 : q.2 < a.2
        · rw [if_pos h2] at hp
          have hpq : p = q := (Option.some.inj hp).symm
          subst hpq
          refine ⟨a :: l1, l2, by rw [hsplit]; rfl, ?_, ?_⟩
          · intro x hx
            rcases List.mem_cons.mp hx with hxa | hxl
            · subst hxa
              exact h2
            · exact hbefore x hxl
          · intro x hx
            rcases List.mem_cons.mp hx with hxa | hxt
            · subst hxa
              exact le_of_lt h2
            · exact hmin x hxt
        · rw [if_neg h2] at hp
          have hpa : p = a := (Option.some.inj hp).symm
          subst hpa
          refine ⟨[], t, by simp, by simp, ?_⟩
          intro x hx
          rcases List.mem_cons.mp hx with hxa | hxt
          · subst hxa
            exact le_refl _
          · exact le_trans (not_lt.mp h2) (hmin x hxt)
  · intro names
    exact ⟨rfl, rfl, rfl⟩

/-- Witness: the first-seen-minimum characterization applied to the
singleton score map. -/
theorem map_workload_min_selection_witness :
    ∃ l1 l2, [((1 : ℕ), (0 : ℚ))] = l1 ++ ((1 : ℕ), (0 : ℚ)) :: l2 ∧
      (∀ q ∈ l1, (((1 : ℕ), (0 : ℚ))).2 < q.2) ∧
      ∀ q ∈ [((1 : ℕ), (0 : ℚ))], (((1 : ℕ), (0 : ℚ))).2 ≤ q.2 :=
  map_workload_min_selection.2.1 [((1 : ℕ), (0 : ℚ))] ((1 : ℕ), (0 : ℚ)) rfl

/-- A sum of nonnegative reals vanishes exactly when every term vanishes. -/
theorem list_sum_eq_zero_iff_of_nonneg {l : List ℝ} (h : ∀ x ∈ l, 0 ≤ x) :
    l.sum = 0 ↔ ∀ x ∈ l, x = 0 := by
  induction l with
  | nil => simp
  | cons a t ih =>
    have ha : 0 ≤ a := h a (by simp)
    have ht : ∀ x ∈ t, 0 ≤ x := fun x hx => h x (by simp [hx])
    have hts : 0 ≤ t.sum := List.sum_nonneg ht
    simp only [List.sum_cons, List.mem_cons]
    constructor
    · intro h0
      have ha0 : a = 0 := by linarith
      have hts0 : t.sum = 0 := by linarith
      intro x hx
      rcases hx with hxa | hxt
      · rwa [hxa]
      · exact (ih ht).mp hts0 x hxt
    · intro hall
      have ha0 : a = 0 := hall a (Or.inl rfl)
      have hts0 : t.sum = 0 := (ih ht).mpr (fun x hx => hall x (Or.inr hx))
      rw [ha0, hts0, add_zero]

/-- Two lists of equal length whose zipped pairs are componentwise equal
are equal. -/
theorem eq_of_zip_forall_eq {α : Type} {p a : List α} (hl : p.length = a.length)
    (h : ∀ q ∈ p.zip a, q.1 = q.2) : p = a := by
  induction p generalizing a with
  | nil =>
    cases a with
    | nil => rfl
    | cons y ys => simp at hl
  | cons x xs ih =>
    cases a with
    | nil => simp at hl
    | cons y ys =>
      simp only [List.zip_cons_cons, List.mem_cons] at h
      have hxy : x = y := h (x, y) (Or.inl rfl)
      have hrest : xs = ys :=
        ih (by simpa using hl) (fun q hq => h q (Or.inr hq))
      rw [hxy, hrest]

/-- Every pair drawn from a list zipped with itself has equal components. -/
theorem zip_self_forall_eq {α : Type} {l : List α} :
    ∀ q ∈ l.zip l, (q : α × α).1 = q.2 := by
  induction l with
  | nil => simp
  | cons x xs ih =>
    intro q hq
    simp only [List.zip_cons_cons, List.mem_cons] at hq
    rcases hq with hq | hq
    · rw [hq]
    · exact ih q hq

/-- The squared row distance is a sum of squares, hence nonnegative. -/
theorem rowDistSq_nonneg (p a : List ℝ) : 0 ≤ rowDistSq p a := by
  apply List.sum_nonneg
  intro x hx
  simp only [rowDistSq, List.mem_map] at hx
  obtain ⟨q, _, rfl⟩ := hx
  positivity

/-- For rows of equal length the squared distance vanishes exactly on equal
rows. -/
theorem rowDistSq_eq_zero_iff {p a : List ℝ} (hl : p.length = a.length) :
    rowDistSq p a = 0 ↔ p = a := by
  unfold rowDistSq
  rw [list_sum_eq_zero_iff_of_nonneg (by
    intro x hx
    simp only [List.mem_map] at hx
    obtain ⟨q, _, rfl⟩ := hx
    positivity)]
  constructor
  · intro h
    apply eq_of_zip_forall_eq hl
    intro q hq
    have hq0 : (q.1 - q.2) ^ 2 = 0 := h _ (List.mem_map_of_mem _ hq)
    have := pow_eq_zero_iff (n := 2) (by norm_num) |>.mp hq0
    linarith [this]
  · intro h
    subst h
    intro x hx
    simp only [List.mem_map] at hx
    obtain ⟨q, hq, rfl⟩ := hx
    have : q.1 = q.2 := zip_self_forall_eq q hq
    rw [this]
    ring

/-- The row distance vanishes exactly when the squared distance does. -/
theorem rowDist_eq_zero_iff (p a : List ℝ) : rowDist p a = 0 ↔ rowDistSq p a = 0 := by
  unfold rowDist
  constructor
  · intro h
    have hle : rowDistSq p a ≤ 0 := Real.sqrt_eq_zero'.mp h
    exact le_antisymm hle (rowDistSq_nonneg p a)
  · intro h
    rw [h, Real.sqrt_zero]

/-- C7: the Mapper's similarity score — the mean over target rows of the
Euclidean distance between predicted-decile and actual-decile vectors — is
nonnegative, and equals 0 exactly when the binned predictions match the
binned target in every row and column. -/
theorem map_workload_score_nonneg_zero_iff (P A : List (List ℝ))
    (hlen : P.length = A.length) (hrow : ∀ pr ∈ P.zip A, pr.1.length = pr.2.length) :
    0 ≤ map_workload_score P A ∧ (map_workload_score P A = 0 ↔ P = A) := by
  have hd_nonneg : ∀ x ∈ (P.zip A).map (fun r => rowDist r.1 r.2), 0 ≤ x := by
    intro x hx
    simp only [List.mem_map] at hx
    obtain ⟨q, _, rfl⟩ := hx
    exact Real.sqrt_nonneg _
  have hsum_nonneg : 0 ≤ ((P.zip A).map (fun r => rowDist r.1 r.2)).sum :=
    List.sum_nonneg hd_nonneg
  constructor
  · exact div_nonneg hsum_nonneg (Nat.cast_nonneg _)
  · rcases List.eq_nil_or_concat P with hP | _
    case inl =>
      subst hP
      have hA : A = [] := by
        cases A with
        | nil => rfl
        | cons y ys => simp at hlen
      subst hA
      simp [map_workload_score]
    case inr =>
      by_cases hz : P.zip A = []
      · have hP0 : P.length = 0 ∨ A.length = 0 := by
          have := congrArg List.length hz
          simp only [List.length_zip, List.length_nil] at this
          omega
        have hPnil : P = [] ∧ A = [] := by
          rcases hP0 with h0 | h0
          · exact ⟨List.length_eq_zero.mp h0, List.length_eq_zero.mp (hlen ▸ h0)⟩
          · exact ⟨List.length_eq_zero.mp (hlen.trans h0), List.length_eq_zero.mp h0⟩
        rw [hPnil.1, hPnil.2]
        simp [map_workload_score]
      · have hlpos : 0 < (P.zip A).length := List.length_pos.mpr hz
        have hcast : ((P.zip A).length : ℝ) ≠ 0 := by
          exact_mod_cast Nat.pos_iff_ne_zero.mp hlpos
        unfold map_workload_score
        rw [div_eq_zero_iff]
        constructor
        · intro hor
          have hsum : ((P.zip A).map (fun r => rowDist r.1 r.2)).sum = 0 := by
            rcases hor with hs | hn
            · exact hs
            · exact absurd hn hcast
          have hall := (list_sum_eq_zero_iff_of_nonneg hd_nonneg).mp hsum
          apply eq_of_zip_forall_eq hlen
          intro pr hpr
          have hd0 : rowDist pr.1 pr.2 = 0 := hall _ (List.mem_map_of_mem _ hpr)
          have hsq0 : rowDistSq pr.1 pr.2 = 0 := (rowDist_eq_zero_iff pr.1 pr.2).mp hd0
          exact (rowDistSq_eq_zero_iff (hrow pr hpr)).mp hsq0
        · intro hPA
          left
          apply (list_sum_eq_zero_iff_of_nonneg hd_nonneg).mpr
          intro x hx
          simp only [List.mem_map] at hx
          obtain ⟨q, hq, rfl⟩ := hx
          have hq12 : q.1 = q.2 := by
            subst hPA
            exact zip_self_forall_eq q hq
          rw [rowDist_eq_zero_iff, hq12, rowDistSq_eq_zero_iff rfl]

/-- Witness: the score properties at a concrete one-row binned matrix. -/
theorem map_workload_score_witness :
    0 ≤ map_workload_score [[1, 2]] [[1, 2]] ∧
    (map_workload_score [[1, 2]] [[1, 2]] = 0 ↔
      ([[1, 2]] : List (List ℝ)) = [[1, 2]]) :=
  map_workload_score_nonneg_zero_iff [[1, 2]] [[1, 2]] rfl (by
    intro pr hpr
    simp only [List.zip_cons_cons, List.zip_nil_left, List.mem_singleton] at hpr
    rw [hpr])
